import Mathlib

/-!
Shallow embedding of the `self_backend/main.mo` personality-engine actor
(WanjalaDavis/self).  Motoko `Float` is modelled by `ℚ`; `Time.Time`
(nanoseconds) by `ℤ`; `Text` by `String`.  The transcendental helpers
`Float.exp` and `Float.pow` are passed as explicit function parameters
(`fexp : ℚ → ℚ`, `fpow : ℚ → ℚ → ℚ`); theorems that depend on their values
assume only facts true of the real functions (e.g. `exp 0 = 1`,
`0 ≤ exp x ≤ 1` for `x ≤ 0`), and concrete statements instantiate them with
rational stand-ins that agree with the real functions at every point at
which they are actually evaluated.
-/

namespace SelfBackend

/-! ### Text utilities (model of the Motoko `Text` operations used) -/

/-- Lowercase a single character (ASCII, as `Text.toLowercase` on the inputs
used by the engine). -/
def lowerChar (c : Char) : Char :=
  if 'A' ≤ c ∧ c ≤ 'Z' then Char.ofNat (c.toNat + 32) else c

/-- Lowercase a string, character by character: model of `Text.toLowercase`. -/
def lowerString (s : String) : String :=
  String.mk (s.data.map lowerChar)

/-- `leadsList a b` is true when `a` is an initial segment of `b`. -/
def leadsList : List Char → List Char → Bool
  | [], _ => true
  | _ :: _, [] => false
  | x :: xs, y :: ys => x = y && leadsList xs ys

/-- `containsSub hay needle` : does `needle` occur contiguously in `hay`?
Model of `Text.contains(hay, #text needle)`. -/
def containsSub : List Char → List Char → Bool
  | [], needle => needle.isEmpty
  | c :: rest, needle => leadsList needle (c :: rest) || containsSub rest needle

/-- String-level substring containment. -/
def textContains (hay needle : String) : Bool :=
  containsSub hay.data needle.data

/-- Split a character list at characters satisfying `p`, dropping empty
fields: model of `Text.tokens`. -/
def fieldsByAux (p : Char → Bool) : List Char → List Char → List (List Char)
  | [], acc => if acc.isEmpty then [] else [acc.reverse]
  | c :: rest, acc =>
    if p c then
      (if acc.isEmpty then fieldsByAux p rest [] else acc.reverse :: fieldsByAux p rest [])
    else fieldsByAux p rest (c :: acc)

/-- Nonempty fields of `l` separated by characters satisfying `p`. -/
def fieldsBy (p : Char → Bool) (l : List Char) : List (List Char) :=
  fieldsByAux p l []

/-- Split a character list at characters satisfying `p`, keeping empty
fields (so the result is always nonempty): model of `Text.split`. -/
def splitByAux (p : Char → Bool) : List Char → List Char → List (List Char)
  | [], acc => [acc.reverse]
  | c :: rest, acc =>
    if p c then acc.reverse :: splitByAux p rest []
    else splitByAux p rest (c :: acc)

/-- All fields of `l` (empty ones included) separated by `p`-characters. -/
def splitBy (p : Char → Bool) (l : List Char) : List (List Char) :=
  splitByAux p l []

/-- Trim characters satisfying `p` from both ends: model of `Text.trim`. -/
def trimBoth (p : Char → Bool) (l : List Char) : List Char :=
  ((l.dropWhile p).reverse.dropWhile p).reverse

/-- The punctuation characters trimmed by `trimPunctuation` (the source
lists `.` `,` `!` `?` `;` `:` apostrophe, double quote, parentheses, `-`,
and square/curly brackets). -/
def punctChars : List Char :=
  ['.', ',', '!', '?', ';', ':', Char.ofNat 39, Char.ofNat 34,
   '(', ')', '-', Char.ofNat 91, Char.ofNat 93, Char.ofNat 123, Char.ofNat 125]

/-- Model of `trimPunctuation`: trim each punctuation character in turn from
both ends of the word. -/
def trimPunctuation (word : List Char) : List Char :=
  punctChars.foldl (fun cleaned p => trimBoth (fun c => c = p) cleaned) word

/-! ### Data model -/

/-- Emotions carry their emoji text, as in the Motoko variant type. -/
inductive Emotion where
  | happy : String → Emotion
  | sad : String → Emotion
  | angry : String → Emotion
  | neutral : String → Emotion
  | excited : String → Emotion
  | confused : String → Emotion
deriving DecidableEq, Repr

inductive CommunicationStyle where
  | formal | casual | technical | humorous | empathetic | balanced
deriving DecidableEq, Repr

structure PersonalityTrait where
  name : String
  strength : ℚ
  lastUpdated : ℤ
deriving DecidableEq, Repr

structure QuestionOption where
  text : String
  value : String
deriving DecidableEq, Repr

structure TrainingQuestion where
  id : ℕ
  question : String
  category : String
  importance : ℕ
  triggers : List String
  options : List QuestionOption
deriving DecidableEq, Repr

structure Memory where
  id : ℕ
  content : String
  emotionalWeight : ℚ
  lastAccessed : ℤ
  accessCount : ℕ
  associatedEmotions : List Emotion
  decayRate : ℚ
deriving DecidableEq, Repr

structure KnowledgeEntry where
  questionId : ℕ
  answer : String
  confidence : ℚ
  lastUsed : ℤ
  usageCount : ℕ
deriving DecidableEq, Repr

structure ConversationContext where
  recentTopics : List String
  currentEmotion : Option Emotion
  stylePreference : CommunicationStyle
deriving DecidableEq, Repr

structure UserPreferences where
  preferredStyle : CommunicationStyle
  depthLevel : ℕ
  formality : ℕ
deriving DecidableEq, Repr

structure UserProfile where
  username : String
  email : String
  bio : Option String
  profilePic : Option (List ℕ)
  traits : List PersonalityTrait
  knowledgeBase : List KnowledgeEntry
  memories : List Memory
  preferences : UserPreferences
  deployed : Bool
  createdAt : ℤ
  lastUpdated : ℤ
  trainingProgress : ℕ
  conversationHistory : List ConversationContext
deriving DecidableEq, Repr

instance {ε α : Type _} [DecidableEq ε] [DecidableEq α] : DecidableEq (Except ε α) :=
  fun a b =>
    match a, b with
    | Except.error x, Except.error y =>
      if h : x = y then Decidable.isTrue (by rw [h]) else Decidable.isFalse (by simp [h])
    | Except.ok x, Except.ok y =>
      if h : x = y then Decidable.isTrue (by rw [h]) else Decidable.isFalse (by simp [h])
    | Except.error _, Except.ok _ => Decidable.isFalse (by simp)
    | Except.ok _, Except.error _ => Decidable.isFalse (by simp)

/-! ### NLP components -/

/-- The fixed stop-word list of the actor. -/
def stopWords : List String :=
  ["a", "an", "the", "and", "or", "but", "if", "then", "else", "when", "at",
   "from", "by", "on", "off", "for", "in", "out", "over", "to", "with"]

/-- The sentiment lexicon built by `initSentimentWords` (positive then
negative entries, in insertion order). -/
def sentimentWords : List (String × ℚ) :=
  [("happy", 4/5), ("joy", 9/10), ("love", 1), ("great", 7/10),
   ("sad", -(4/5)), ("angry", -(9/10)), ("hate", -1), ("bad", -(7/10))]

/-- The emoji table built by `initSentimentWords`, in insertion order (the
source iterates a hash trie whose order is unspecified but deterministic;
the claims proved here do not depend on the order). -/
def emojiList : List (String × Emotion) :=
  [("😊", Emotion.happy "😊"), ("😔", Emotion.sad "😔"),
   ("😠", Emotion.angry "😠"), ("😐", Emotion.neutral "😐"),
   ("🤩", Emotion.excited "🤩"), ("😕", Emotion.confused "😕")]

/-- The built-in 17-question training catalog (ids 0–16). -/
def trainingQuestions : List TrainingQuestion :=
  [{ id := 0, question := "How would you describe your personality in 5 words?",
     category := "personality", importance := 5,
     triggers := ["describe", "personality", "character", "traits"],
     options := [{ text := "(open)", value := "open" }] },
   { id := 1, question := "Are you more introverted or extroverted?",
     category := "personality", importance := 4,
     triggers := ["introvert", "extrovert", "social", "outgoing", "shy"],
     options := [{ text := "Introverted", value := "introverted" },
                 { text := "Extroverted", value := "extroverted" }] },
   { id := 2, question := "How do you typically respond to stress?",
     category := "personality", importance := 4,
     triggers := ["stress", "pressure", "anxious", "cope", "handle"],
     options := [{ text := "(open)", value := "open" }] },
   { id := 3, question := "What are your top 3 core values?",
     category := "values", importance := 5,
     triggers := ["values", "important", "believe", "principles"],
     options := [{ text := "(open)", value := "open" }] },
   { id := 4, question := "What moral principle would you never compromise?",
     category := "values", importance := 5,
     triggers := ["moral", "principle", "compromise", "ethics"],
     options := [{ text := "(open)", value := "open" }] },
   { id := 5, question := "Describe your morning routine",
     category := "habits", importance := 3,
     triggers := ["morning", "routine", "wake up", "start day"],
     options := [{ text := "(open)", value := "open" }] },
   { id := 6, question := "What's your ideal way to spend a weekend?",
     category := "habits", importance := 3,
     triggers := ["weekend", "free time", "hobby", "relax"],
     options := [{ text := "(open)", value := "open" }] },
   { id := 7, question := "Are you more logical or emotional in decision making?",
     category := "cognition", importance := 4,
     triggers := ["decide", "decision", "logic", "emotion", "think", "feel"],
     options := [{ text := "Logical", value := "logical" },
                 { text := "Emotional", value := "emotional" }] },
   { id := 8, question := "How do you approach solving complex problems?",
     category := "cognition", importance := 4,
     triggers := ["solve", "problem", "complex", "approach", "method"],
     options := [{ text := "(open)", value := "open" }] },
   { id := 9, question := "What qualities do you value most in friends?",
     category := "relationships", importance := 4,
     triggers := ["friend", "qualities", "value", "close", "relationship"],
     options := [{ text := "(open)", value := "open" }] },
   { id := 10, question := "How do you handle conflict in relationships?",
     category := "relationships", importance := 4,
     triggers := ["conflict", "fight", "argument", "disagree", "handle"],
     options := [{ text := "(open)", value := "open" }] },
   { id := 11, question := "What's the most important lesson life has taught you?",
     category := "experiences", importance := 5,
     triggers := ["lesson", "learn", "life", "experience", "taught"],
     options := [{ text := "(open)", value := "open" }] },
   { id := 12, question := "Describe a formative childhood experience",
     category := "experiences", importance := 4,
     triggers := ["childhood", "grow up", "young", "experience", "formative"],
     options := [{ text := "(open)", value := "open" }] },
   { id := 13, question := "Where do you see yourself in 5 years?",
     category := "future", importance := 3,
     triggers := ["future", "plan", "goal", "dream", "aspire"],
     options := [{ text := "(open)", value := "open" }] },
   { id := 14, question := "What legacy would you like to leave?",
     category := "future", importance := 4,
     triggers := ["legacy", "remember", "impact", "contribute", "leave"],
     options := [{ text := "(open)", value := "open" }] },
   { id := 15, question := "What inspires your creativity?",
     category := "creativity", importance := 3,
     triggers := ["inspire", "creative", "idea", "imagine", "create"],
     options := [{ text := "(open)", value := "open" }] },
   { id := 16, question := "How do you overcome creative blocks?",
     category := "creativity", importance := 3,
     triggers := ["block", "stuck", "creative", "unblock", "inspiration"],
     options := [{ text := "(open)", value := "open" }] }]

/-! ### Tokenizer -/

/-- The separator characters of `tokenize` (space, newline, tab, and the
listed punctuation; the two `Char.ofNat` entries are double quote and
apostrophe). -/
def isSepChar (c : Char) : Bool :=
  c = ' ' || c = Char.ofNat 10 || c = Char.ofNat 9 ||
  c = ',' || c = '.' || c = '?' || c = '!' ||
  c = ';' || c = ':' || c = '(' || c = ')' ||
  c = Char.ofNat 34 || c = Char.ofNat 39 || c = '-' || c = '/'

/-- Model of `isCommonWord`: membership of the lowercased word in the fixed
stop-word list. -/
def isCommonWord (word : String) : Bool :=
  stopWords.contains (lowerString word)

/-- Strip a trailing suffix: `substring(clean, 0, size - k)`. -/
def dropLastChars (l : List Char) (k : ℕ) : List Char :=
  l.take (l.length - k)

/-- `endsWithChars l suf` : model of `Text.endsWith`. -/
def endsWithChars (l suf : List Char) : Bool :=
  leadsList suf.reverse l.reverse

/-- The per-token cleaning step of `tokenize`: trim spaces and punctuation,
keep tokens of length ≥ 3 that are not stop words, and strip the suffixes
`ing`, `ly`, `ed` (first match wins). -/
def cleanToken (t : List Char) : List (List Char) :=
  let clean := trimPunctuation (trimBoth (fun c => c = ' ') t)
  if 3 ≤ clean.length ∧ ¬ isCommonWord (String.mk clean) then
    let stemmed :=
      if endsWithChars clean ['i', 'n', 'g'] then dropLastChars clean 3
      else if endsWithChars clean ['l', 'y'] then dropLastChars clean 2
      else if endsWithChars clean ['e', 'd'] then dropLastChars clean 2
      else clean
    [stemmed]
  else []

/-- Model of `tokenize`: lowercase, split on separators, clean/stem each
token, then append adjacent-pair bigrams when at least two tokens remain. -/
def tokenize (text : String) : List String :=
  let raw := fieldsBy isSepChar (text.data.map lowerChar)
  let tokens := (raw.flatMap cleanToken).map String.mk
  if 2 ≤ tokens.length then
    tokens ++ List.zipWith (fun a b => a ++ " " ++ b) tokens tokens.tail
  else tokens

/-- Model of `tokenOverlap`: sum `0.1 × length` over the tokens of `a` that
occur in `b`. -/
def tokenOverlap (a b : List String) : ℚ :=
  a.foldl (fun score x => if b.contains x then score + (x.length : ℚ) * (1/10) else score) 0

/-! ### Emotion and style classifiers -/

/-- Model of `analyzeEmotion`: first emoji found in the text wins; otherwise
average the sentiment lexicon over the tokens and band the average. -/
def analyzeEmotion (text : String) : Option Emotion :=
  match emojiList.find? (fun p => textContains text p.1) with
  | some p => some p.2
  | none =>
    let tokens := tokenize text
    let scored := tokens.filterMap (fun t => sentimentWords.lookup t)
    if scored.length = 0 then none
    else
      let avgScore := scored.foldl (· + ·) 0 / (scored.length : ℚ)
      if avgScore > 1/2 then some (Emotion.happy "😊")
      else if avgScore > 1/5 then some (Emotion.excited "🤩")
      else if avgScore < -(1/2) then some (Emotion.angry "😠")
      else if avgScore < -(1/5) then some (Emotion.sad "😔")
      else some (Emotion.neutral "😐")

/-- Model of `detectCommunicationStyle`: count keyword hits per style and
return the first category (in the fixed precedence order) achieving the
maximum count. -/
def detectCommunicationStyle (text : String) : CommunicationStyle :=
  let tokens := tokenize (lowerString text)
  let casual := (tokens.filter (fun t => ["hi", "hey", "what's up"].contains t)).length
  let formal := (tokens.filter (fun t => ["dear", "sincerely", "respectfully"].contains t)).length
  let tech := (tokens.filter (fun t => ["algorithm", "protocol", "interface"].contains t)).length
  let humor := (tokens.filter (fun t => ["lol", "haha", "funny"].contains t)).length
  let emp := (tokens.filter (fun t => ["feel", "understand", "empathy"].contains t)).length
  let maxVal := [formal, casual, tech, humor, emp].foldl Nat.max 0
  if tech = maxVal then CommunicationStyle.technical
  else if humor = maxVal then CommunicationStyle.humorous
  else if emp = maxVal then CommunicationStyle.empathetic
  else if formal = maxVal then CommunicationStyle.formal
  else CommunicationStyle.casual

/-- Model of `blendStyles`: a pseudo-random byte derived from the current
time (`Nat64.fromIntWrap(Time.now()) % 256`) decides whether the preference
switches to the newly detected style. -/
def blendStyles (now : ℤ) (current detected : CommunicationStyle) (factor : ℚ) :
    CommunicationStyle :=
  if current = detected then current
  else
    let b : ℕ := (now % (18446744073709551616 : ℤ)).toNat % 256
    let randFloat : ℚ := (b : ℚ) / 255
    if randFloat < factor then detected else current

/-! ### Conversation context and training progress -/

/-- Model of `updateContext`: prepend the first surviving token of the
message as the new topic, truncate to 3 topics, refresh the emotion. -/
def updateContext (current : ConversationContext) (message : String) :
    ConversationContext :=
  let tokens := tokenize message
  let newTopics :=
    match tokens with
    | t :: _ => t :: current.recentTopics
    | [] => current.recentTopics
  let trimmedTopics := if 3 < newTopics.length then newTopics.take 3 else newTopics
  { recentTopics := trimmedTopics
    currentEmotion := analyzeEmotion message
    stylePreference := current.stylePreference }

/-- Model of `calculateTrainingProgress` over the catalog `qs`. -/
def calculateTrainingProgress (qs : List TrainingQuestion) (user : UserProfile) : ℕ :=
  if qs.length = 0 then 0
  else Nat.min 100 (user.knowledgeBase.length * 100 / qs.length)

/-! ### Sorting (model of `Array.sort`)

`Array.sort` is modelled by a stable insertion sort; every claim proved
below depends only on the result being a permutation ordered by the given
comparator, which both sorts guarantee. -/

def insertOrd (r : α → α → Bool) (a : α) : List α → List α
  | [] => [a]
  | b :: l => if r a b then a :: b :: l else b :: insertOrd r a l

def sortOrd (r : α → α → Bool) : List α → List α
  | [] => []
  | a :: l => insertOrd r a (sortOrd r l)

theorem insertOrd_perm (r : α → α → Bool) (a : α) (l : List α) :
    (insertOrd r a l).Perm (a :: l) := by
  induction l with
  | nil => simp [insertOrd]
  | cons b t ih =>
    simp only [insertOrd]
    split
    · exact List.Perm.refl _
    · exact (List.Perm.cons b ih).trans (List.Perm.swap a b t)

theorem sortOrd_perm (r : α → α → Bool) (l : List α) :
    (sortOrd r l).Perm l := by
  induction l with
  | nil => simp [sortOrd]
  | cons a t ih =>
    exact (insertOrd_perm r a (sortOrd r t)).trans (List.Perm.cons a ih)

/-! ### Trait extractor -/

/-- Hours elapsed between two nanosecond timestamps
(`Float.fromInt(Int.abs(now - last)) / 3_600_000_000_000`). -/
def hoursSince (now last : ℤ) : ℚ :=
  ((now - last).natAbs : ℚ) / 3600000000000

/-- Days elapsed between two nanosecond timestamps
(`Float.fromInt(Int.abs(now - last)) / 86_400_000_000_000`). -/
def daysSince (now last : ℤ) : ℚ :=
  ((now - last).natAbs : ℚ) / 86400000000000

/-- The decay pass of `extractTraits`: every existing trait's strength is
multiplied by `exp(-0.0001 × hours since last update)`. -/
def decayTrait (fexp : ℚ → ℚ) (now : ℤ) (t : PersonalityTrait) : PersonalityTrait :=
  { t with
    strength := t.strength * fexp (-(1/10000) * hoursSince now t.lastUpdated)
    lastUpdated := now }

/-- Insert-or-bump for one cleaned token: bump the first trait with the
matching name (`min 10 (strength + 1)`), or append a fresh trait at
strength 5. -/
def upsertTrait (now : ℤ) (clean : String) : List PersonalityTrait → List PersonalityTrait
  | [] => [{ name := clean, strength := 5, lastUpdated := now }]
  | t :: rest =>
    if t.name = clean then
      { t with strength := min 10 (t.strength + 1), lastUpdated := now } :: rest
    else t :: upsertTrait now clean rest

/-- One raw token of the `extractTraits` loop: lowercase, trim punctuation,
and upsert when longer than 3 characters and not a stop word. -/
def processTraitToken (now : ℤ) (ts : List PersonalityTrait) (tok : List Char) :
    List PersonalityTrait :=
  let clean := String.mk (trimPunctuation (tok.map lowerChar))
  if 3 < clean.length ∧ ¬ isCommonWord clean then upsertTrait now clean ts else ts

/-- The separator set of the `extractTraits` tokenization (space, newline,
tab, comma, period). -/
def isTraitSepChar (c : Char) : Bool :=
  c = ' ' || c = Char.ofNat 10 || c = Char.ofNat 9 || c = ',' || c = '.'

/-- Model of `extractTraits`: decay existing traits, fold the answer's
tokens through insert-or-bump, then keep the 15 strongest. -/
def extractTraits (fexp : ℚ → ℚ) (text : String) (currentTraits : List PersonalityTrait)
    (now : ℤ) : List PersonalityTrait :=
  let tokens := fieldsBy isTraitSepChar text.data
  let decayed := currentTraits.map (decayTrait fexp now)
  let allTraits := tokens.foldl (processTraitToken now) decayed
  let sortedArray := sortOrd (fun a b => b.strength ≤ a.strength) allTraits
  sortedArray.take (Nat.min 15 sortedArray.length)

/-! ### Memory manager -/

/-- The floor below which `applyMemoryDecay` is meant to drop memories
(`minMemoryStrength = 0.1`). -/
def minMemoryStrength : ℚ := 1/10

/-- The per-memory update of `applyMemoryDecay`: decay the weight by
`decayRate ^ days`, floor it at `minMemoryStrength`, and slow the decay of
frequently accessed memories. -/
def decayMemory (fpow : ℚ → ℚ → ℚ) (now : ℤ) (mem : Memory) : Memory :=
  let decayFactor := fpow mem.decayRate (daysSince now mem.lastAccessed)
  let newWeight := max minMemoryStrength (mem.emotionalWeight * decayFactor)
  let newDecayRate :=
    if 5 < mem.accessCount then min (99/100) (mem.decayRate + 1/100) else mem.decayRate
  { mem with emotionalWeight := newWeight, decayRate := newDecayRate }

/-- Model of `applyMemoryDecay`: decay every memory, then filter out those
whose weight fell below `minMemoryStrength`. -/
def applyMemoryDecay (fpow : ℚ → ℚ → ℚ) (now : ℤ) (user : UserProfile) : UserProfile :=
  let updatedMemories := user.memories.map (decayMemory fpow now)
  let filteredMemories := updatedMemories.filter
    (fun m => minMemoryStrength ≤ m.emotionalWeight)
  { user with memories := filteredMemories }

/-! ### Knowledge matcher -/

/-- The composite score `matchKnowledgeBase` assigns to one entry:
`(overlap(msg, question) + overlap(msg, answer)) × importance ×
exp(-0.1 × days since lastUsed) × context relevance`. -/
def entryScore (qs : List TrainingQuestion) (fexp : ℚ → ℚ) (now : ℤ)
    (context : ConversationContext) (msgTokens : List String)
    (entry : KnowledgeEntry) : ℚ :=
  let qOpt := qs.find? (fun q => q.id = entry.questionId)
  let questionText := match qOpt with | some q => q.question | none => ""
  let qTokens := tokenize questionText
  let aTokens := tokenize entry.answer
  let scoreQ := tokenOverlap msgTokens qTokens
  let scoreA := tokenOverlap msgTokens aTokens
  let importance : ℚ := match qOpt with | some q => (q.importance : ℚ) | none => 1
  let recency := daysSince now entry.lastUsed
  let recencyFactor := fexp (-(1/10) * recency)
  let contextRelevance :=
    if 0 < context.recentTopics.length then
      (context.recentTopics.foldl
        (fun acc topic => acc + tokenOverlap aTokens (tokenize topic)) 0) /
        (context.recentTopics.length : ℚ)
    else 1
  (scoreQ + scoreA) * importance * recencyFactor * contextRelevance

/-- The best-entry loop of `matchKnowledgeBase`: update the running best
whenever the current score strictly exceeds it. -/
def bestEntryLoop (score : α → ℚ) : List α → Option α → ℚ → Option α × ℚ
  | [], best, bestScore => (best, bestScore)
  | e :: rest, best, bestScore =>
    if bestScore < score e then bestEntryLoop score rest (some e) (score e)
    else bestEntryLoop score rest best bestScore

/-- Model of `matchKnowledgeBase`: `none` on an empty token list, otherwise
the outcome of the best-entry loop started at `(null, 0.0)`. -/
def matchKnowledgeBase (qs : List TrainingQuestion) (fexp : ℚ → ℚ) (now : ℤ)
    (user : UserProfile) (message : String) (context : ConversationContext) :
    Option (KnowledgeEntry × ℚ) :=
  let msgTokens := tokenize message
  if msgTokens.length = 0 then none
  else
    match bestEntryLoop (entryScore qs fexp now context msgTokens)
        user.knowledgeBase none 0 with
    | (some entry, bestScore) => some (entry, bestScore)
    | (none, _) => none

/-! ### Response synthesizer -/

/-- Model of `elaborateOnTopic` (the canned depth-3 elaboration). -/
def detailOnTopic (text : String) : String :=
  let lower := lowerString text
  if textContains lower "happy" then "Happiness is such an important aspect of life. "
  else if textContains lower "problem" then "Problems can often be opportunities in disguise. "
  else "This is an interesting topic worth exploring further. "

/-- Model of `formatResponse`: depth adjustment, formality adjustment, then
an emoji prefix when an emotion was detected. -/
def formatResponse (text : String) (prefs : UserPreferences) (emotion : Option Emotion) :
    String :=
  let depthAdjusted :=
    if prefs.depthLevel = 1 then
      match splitBy (fun c => c = '.') text.data with
      | s :: _ => String.mk s
      | [] => text
    else if prefs.depthLevel = 3 then text ++ " " ++ detailOnTopic text
    else text
  let formalityAdjusted :=
    if 4 ≤ prefs.formality then
      "Dear user, " ++ depthAdjusted ++ " Thank you for your inquiry."
    else if prefs.formality ≤ 2 then "Hey! " ++ lowerString depthAdjusted
    else depthAdjusted
  match emotion with
  | some (Emotion.happy emoji) => emoji ++ " " ++ formalityAdjusted
  | some (Emotion.sad emoji) => emoji ++ " " ++ formalityAdjusted
  | some (Emotion.angry emoji) => emoji ++ " " ++ formalityAdjusted
  | some (Emotion.excited emoji) => emoji ++ " " ++ formalityAdjusted
  | some (Emotion.neutral emoji) => emoji ++ " " ++ formalityAdjusted
  | some (Emotion.confused emoji) => emoji ++ " " ++ formalityAdjusted
  | none => formalityAdjusted

/-- The synthesis fallback of `generateAdvancedResponse`.  Array indexing
(`sortedMemories[0]`, `recentTopics[0]`) is modelled by `head?` inside the
guards the source uses, with `none` standing for a Motoko trap. -/
def synthesizeFallback (user : UserProfile) (context : ConversationContext) :
    Option String :=
  let traitsText :=
    if 0 < user.traits.length then
      "I know you value " ++
        (user.traits.foldl
          (fun acc trait =>
            if acc.length = 0 then trait.name else acc ++ ", " ++ trait.name) "") ++
        ". "
    else ""
  let memoryText? : Option String :=
    if 0 < user.memories.length then
      (sortOrd (fun a b => b.emotionalWeight ≤ a.emotionalWeight) user.memories).head?.map
        (fun m => "I remember you mentioned: \"" ++ m.content ++ "\". ")
    else some ""
  let contextText? : Option String :=
    if 0 < context.recentTopics.length then
      context.recentTopics.head?.map (fun topic => "We were discussing " ++ topic ++ ". ")
    else some ""
  match memoryText?, contextText? with
  | some memoryText, some contextText =>
    let baseResponse := "Thanks for your message. " ++ traitsText ++ memoryText ++ contextText
    let followUp :=
      match context.currentEmotion with
      | some (Emotion.happy _) => "That sounds great! Tell me more."
      | some (Emotion.excited _) => "That sounds great! Tell me more."
      | some (Emotion.sad _) => "I sense this is important to you. Would you like to talk more about it?"
      | some (Emotion.angry _) => "I sense this is important to you. Would you like to talk more about it?"
      | _ => "Can you tell me more about this?"
    some (formatResponse (baseResponse ++ followUp) user.preferences context.currentEmotion)
  | _, _ => none

/-- Model of `generateAdvancedResponse`: return the matched entry's
formatted answer when its score clears the 2.5 threshold, otherwise
synthesize.  Note the source builds `_updatedEntry` (usage bookkeeping) and
discards it, so this function's result is the reply text alone. -/
def generateAdvancedResponse (qs : List TrainingQuestion) (fexp : ℚ → ℚ) (now : ℤ)
    (user : UserProfile) (message : String) (context : ConversationContext) :
    Option String :=
  match matchKnowledgeBase qs fexp now user message context with
  | some (entry, score) =>
    if 5/2 < score then
      some (formatResponse entry.answer user.preferences context.currentEmotion)
    else synthesizeFallback user context
  | none => synthesizeFallback user context

/-! ### Public operations (each modelled as the state transition applied to
the caller's stored profile; `usersMap.put` becomes returning the updated
profile) -/

/-- The profile created by `register`. -/
def freshProfile (username email : String) (now : ℤ) : UserProfile :=
  { username := username
    email := email
    bio := none
    profilePic := none
    traits := []
    knowledgeBase := []
    memories := []
    preferences := { preferredStyle := CommunicationStyle.balanced, depthLevel := 2, formality := 3 }
    deployed := false
    createdAt := now
    lastUpdated := now
    trainingProgress := 0
    conversationHistory := [] }

/-- Model of `updateProfile` on a found user. -/
def updateProfileOp (qs : List TrainingQuestion) (now : ℤ) (bio : Option String)
    (profilePic : Option (List ℕ)) (preferredStyle : Option CommunicationStyle)
    (depthLevel : Option ℕ) (formality : Option ℕ) (user : UserProfile) : UserProfile :=
  { user with
    bio := bio
    profilePic := profilePic
    preferences :=
      { preferredStyle := preferredStyle.getD user.preferences.preferredStyle
        depthLevel := depthLevel.getD user.preferences.depthLevel
        formality := formality.getD user.preferences.formality }
    lastUpdated := now
    trainingProgress := calculateTrainingProgress qs user }

/-- Model of `submitAnswer` on a found user (`memId` stands for the global
`nextMemoryId` counter). -/
def submitAnswer (qs : List TrainingQuestion) (fexp : ℚ → ℚ) (now : ℤ) (memId : ℕ)
    (user : UserProfile) (questionId : ℕ) (answer : String) (emotion : Option Emotion) :
    UserProfile :=
  let question := qs.find? (fun q => q.id = questionId)
  let newEntry : KnowledgeEntry :=
    { questionId := questionId, answer := answer, confidence := 1, lastUsed := now, usageCount := 0 }
  let newKnowledgeBase := user.knowledgeBase ++ [newEntry]
  let significant : Bool :=
    decide (50 < answer.length) ||
      (match question with | none => false | some q => decide (4 ≤ q.importance))
  let newMemories :=
    if significant then
      user.memories ++
        [{ id := memId
           content := answer
           emotionalWeight := match question with | none => 3 | some q => (q.importance : ℚ)
           lastAccessed := now
           accessCount := 0
           associatedEmotions := match emotion with | some e => [e] | none => []
           decayRate := 19/20 }]
    else user.memories
  let newTraits :=
    match question with
    | some q =>
      if q.category = "personality" then extractTraits fexp answer user.traits now
      else user.traits
    | none => user.traits
  let detectedStyle := detectCommunicationStyle answer
  let currentPrefs := user.preferences
  let updatedPrefs :=
    if detectedStyle ≠ currentPrefs.preferredStyle then
      { currentPrefs with
        preferredStyle := blendStyles now currentPrefs.preferredStyle detectedStyle (3/10) }
    else currentPrefs
  { user with
    traits := newTraits
    knowledgeBase := newKnowledgeBase
    memories := newMemories
    preferences := updatedPrefs
    lastUpdated := now
    trainingProgress :=
      calculateTrainingProgress qs { user with knowledgeBase := newKnowledgeBase } }

/-- Model of `deploySystem` on a found user. -/
def deploySystem (now : ℤ) (user : UserProfile) : Except String UserProfile :=
  if user.knowledgeBase.length < 10 then
    Except.error "You must answer at least 10 questions before deploying"
  else
    Except.ok
      { user with deployed := true, lastUpdated := now, trainingProgress := 100 }

/-- Model of `chatWithSystem` on the owner's profile.  The outer `Option`
models Motoko trapping (the unguarded `conversationHistory[0]` and the
indexings inside the synthesizer); the `Except` carries the API-level
error.  A success returns the reply together with the stored profile. -/
def chatWithSystem (qs : List TrainingQuestion) (fexp : ℚ → ℚ) (now : ℤ)
    (user : UserProfile) (message : String) (resetContext : Bool) :
    Option (Except String (String × UserProfile)) :=
  if user.deployed = false then
    some (Except.error "This user hasn't deployed their system yet")
  else
    let currentContext? : Option ConversationContext :=
      if resetContext ∨ user.conversationHistory.length = 0 then
        some
          { recentTopics := []
            currentEmotion := analyzeEmotion message
            stylePreference := user.preferences.preferredStyle }
      else user.conversationHistory.head?.map (fun c => updateContext c message)
    match currentContext? with
    | none => none
    | some currentContext =>
      match generateAdvancedResponse qs fexp now user message currentContext with
      | none => none
      | some response =>
        let updatedHistory :=
          if 5 ≤ user.conversationHistory.length then
            currentContext :: user.conversationHistory.take 4
          else currentContext :: user.conversationHistory
        some (Except.ok (response,
          { user with conversationHistory := updatedHistory, lastUpdated := now }))

/-- The per-entry confidence update of `provideFeedback`
(`confidence × (0.8 + clampedScore × 0.05)`, clamped to `[0.2, 1.0]`),
applied to entries whose `questionId` matches. -/
def updateEntryConfidence (now : ℤ) (qid : ℕ) (clampedScore : ℕ) (entry : KnowledgeEntry) :
    KnowledgeEntry :=
  if entry.questionId = qid then
    { entry with
      confidence :=
        min 1 (max (1/5) (entry.confidence * (4/5 + (clampedScore : ℚ) * (1/20))))
      lastUsed := now }
  else entry

/-- The per-memory weight update of `provideFeedback`
(weight + `(clampedScore - 3) × 0.2`, clamped to `[0.1, 10.0]`; the
subtraction is modelled at `ℚ`). -/
def updateMemoryWeight (now : ℤ) (mid : ℕ) (clampedScore : ℕ) (mem : Memory) : Memory :=
  if mem.id = mid then
    { mem with
      emotionalWeight :=
        min 10 (max (1/10) (mem.emotionalWeight + ((clampedScore : ℚ) - 3) * (1/5)))
      lastAccessed := now
      accessCount := mem.accessCount + 1 }
  else mem

/-- Model of `provideFeedback` on a found owner profile. -/
def provideFeedback (now : ℤ) (user : UserProfile) (questionId : Option ℕ)
    (memoryId : Option ℕ) (score : ℕ) (comments : Option String) : UserProfile :=
  let clampedScore := Nat.min 5 (Nat.max 1 score)
  let updatedKnowledge :=
    match questionId with
    | some qid => user.knowledgeBase.map (updateEntryConfidence now qid clampedScore)
    | none => user.knowledgeBase
  let updatedMemories :=
    match memoryId with
    | some mid => user.memories.map (updateMemoryWeight now mid clampedScore)
    | none => user.memories
  let updatedPrefs :=
    match comments with
    | some text =>
      { user.preferences with
        preferredStyle :=
          blendStyles now user.preferences.preferredStyle
            (detectCommunicationStyle text) (1/5) }
    | none => user.preferences
  { user with
    knowledgeBase := updatedKnowledge
    memories := updatedMemories
    preferences := updatedPrefs
    lastUpdated := now }

/-- Placeholder question used only to make list indexing total; every use
is proved in-bounds. -/
def dfltQuestion : TrainingQuestion :=
  { id := 0, question := "", category := "", importance := 0, triggers := [], options := [] }

/-- The descending-importance sort used by `getNextQuestion`
(`compareQuestionImportance`). -/
def sortQuestions (l : List TrainingQuestion) : List TrainingQuestion :=
  sortOrd (fun a b => b.importance ≤ a.importance) l

/-- Model of `selectQuestionByImportance`: sort descending, keep the top
(at most) 3, pick `|now| mod pickCount`. -/
def selectQuestionByImportance (now : ℤ) (unanswered : List TrainingQuestion) :
    TrainingQuestion :=
  let sorted := sortQuestions unanswered
  let pickCount := Nat.min 3 sorted.length
  let topQuestions := sorted.take pickCount
  let randIndex := now.natAbs % pickCount
  topQuestions.getD randIndex dfltQuestion

/-- The context-aware selection switch of `getNextQuestion`: prefer a
trigger-matching unanswered question (highest importance first), falling
back to importance-based selection. -/
def selectNext (now : ℤ) (context : Option String)
    (unanswered : List TrainingQuestion) : TrainingQuestion :=
  match context with
  | some ctx =>
    let ctxLower := lowerString ctx
    let matchingQuestions := unanswered.filter
      (fun (q : TrainingQuestion) =>
        q.triggers.any (fun trigger => textContains ctxLower trigger))
    if 0 < matchingQuestions.length then
      (sortQuestions matchingQuestions).getD 0 dfltQuestion
    else selectQuestionByImportance now unanswered
  | none => selectQuestionByImportance now unanswered

/-- Model of `getNextQuestion` over the catalog `qs`. -/
def getNextQuestion (now : ℤ) (qs : List TrainingQuestion) (context : Option String)
    (user : UserProfile) : Except String TrainingQuestion :=
  let answeredIds := user.knowledgeBase.map (fun e => e.questionId)
  let unanswered := qs.filter (fun q => !(answeredIds.contains q.id))
  if unanswered.length = 0 then Except.error "All questions answered"
  else
    let selectedQuestion := selectNext now context unanswered
    let safeOptions := selectedQuestion.options.map
      (fun (opt : QuestionOption) =>
        { opt with text := if opt.text ≠ "" then opt.text else "(No text provided)" })
    Except.ok { selectedQuestion with options := safeOptions }

/-! ### Concrete rational stand-ins for `Float.exp` and `Float.pow`

Concrete (closed) statements below evaluate `Float.exp` only at `0` and
`Float.pow` only at natural-number exponents; on those inputs the stand-ins
agree with the real functions. -/

/-- Stand-in for `Float.exp`, exact at the one point (`0`) where closed
statements evaluate it: `exp 0 = 1`. -/
def expQ (x : ℚ) : ℚ := if x = 0 then 1 else 0

/-- Stand-in for `Float.pow`, exact at natural-number exponents (the only
exponents at which closed statements evaluate it). -/
def powQ (b e : ℚ) : ℚ := b ^ e.num.toNat

/-! ### Reachability: one step per state-changing public operation

Each constructor is one public operation that stores an updated profile for
the affected user (read-only operations change nothing).  The catalog
argument is universally quantified in each step, which covers every catalog
reachable through `addCustomQuestion` (the catalog only ever grows). -/

inductive Step (fexp : ℚ → ℚ) (fpow : ℚ → ℚ → ℚ) : UserProfile → UserProfile → Prop where
  | updateProfile (qs : List TrainingQuestion) (now : ℤ) (bio : Option String)
      (pic : Option (List ℕ)) (style : Option CommunicationStyle)
      (depth formality : Option ℕ) (u : UserProfile) :
      Step fexp fpow u (updateProfileOp qs now bio pic style depth formality u)
  | submitAnswer (qs : List TrainingQuestion) (now : ℤ) (memId qid : ℕ) (ans : String)
      (em : Option Emotion) (u : UserProfile) :
      Step fexp fpow u (submitAnswer qs fexp now memId u qid ans em)
  | deploy (now : ℤ) (u u' : UserProfile) :
      deploySystem now u = Except.ok u' → Step fexp fpow u u'
  | chat (qs : List TrainingQuestion) (now : ℤ) (msg : String) (rst : Bool)
      (reply : String) (u u' : UserProfile) :
      chatWithSystem qs fexp now u msg rst = some (Except.ok (reply, u')) →
      Step fexp fpow u u'
  | feedback (now : ℤ) (qid mid : Option ℕ) (score : ℕ) (comments : Option String)
      (u : UserProfile) :
      Step fexp fpow u (provideFeedback now u qid mid score comments)
  | loginDecay (now : ℤ) (u : UserProfile) :
      Step fexp fpow u (applyMemoryDecay fpow now u)

/-- `answered u qid` : the profile has a knowledge entry for question `qid`. -/
def answered (u : UserProfile) (qid : ℕ) : Prop :=
  ∃ e ∈ u.knowledgeBase, e.questionId = qid

/-- The trait-set invariant of the spec: strengths in `[0, 10]`, at most 15
traits, no duplicate names. -/
def traitsInvariant (ts : List PersonalityTrait) : Prop :=
  (∀ t ∈ ts, 0 ≤ t.strength ∧ t.strength ≤ 10) ∧
  ts.length ≤ 15 ∧
  (ts.map PersonalityTrait.name).Nodup

/-! ### Concrete fixtures used by closed statements -/

/-- The knowledge entry of the spec's worked example (catalog question 10,
importance 4). -/
def entryConflict : KnowledgeEntry :=
  { questionId := 10, answer := "I stay calm and listen.", confidence := 1,
    lastUsed := 0, usageCount := 0 }

/-- A deployed profile holding exactly the worked example's entry. -/
def proConflict : UserProfile :=
  { freshProfile "owner" "owner@example.com" 0 with
    knowledgeBase := [entryConflict], deployed := true }

def msgConflict : String := "How do you handle conflict in relationships?"

/-- The fresh conversation context a chat turn builds when the stored
history is empty (the example message carries no detectable emotion). -/
def freshCtx : ConversationContext :=
  { recentTopics := [], currentEmotion := none,
    stylePreference := CommunicationStyle.balanced }

/-- The profile `chatWithSystem` stores after the worked example's turn. -/
def chatAfterProfile : UserProfile :=
  { proConflict with conversationHistory := [freshCtx], lastUpdated := 0 }

/-- A deployed profile with empty knowledge base, traits and memories. -/
def emptyDeployed : UserProfile :=
  { freshProfile "owner" "owner@example.com" 0 with deployed := true }

/-- A memory whose stored weight is already below the 0.1 floor (a legal
profile value for the decay pass, which quantifies over every profile). -/
def weakMemory : Memory :=
  { id := 1, content := "x", emotionalWeight := 1/20, lastAccessed := 0,
    accessCount := 0, associatedEmotions := [], decayRate := 19/20 }

def proWeakMemory : UserProfile :=
  { freshProfile "bob" "bob@example.com" 0 with memories := [weakMemory] }

/-- A profile with exactly 10 answered questions. -/
def proTen : UserProfile :=
  { freshProfile "dana" "dana@example.com" 0 with
    knowledgeBase := (List.range 10).map
      (fun i => { questionId := i, answer := "yes", confidence := 1,
                  lastUsed := 0, usageCount := 0 }) }

/-- A knowledge entry with mid-range confidence, for the feedback example. -/
def entryHalf : KnowledgeEntry :=
  { questionId := 10, answer := "a", confidence := 1/2, lastUsed := 0, usageCount := 0 }

def proHalf : UserProfile :=
  { freshProfile "erin" "erin@example.com" 0 with knowledgeBase := [entryHalf] }

/-- The profile obtained by answering catalog question 0 on a fresh profile. -/
def proAnsweredZero : UserProfile :=
  submitAnswer trainingQuestions expQ 0 1 (freshProfile "alice" "alice@example.com" 0) 0 "" none

/-- Catalog question 3 (the highest-importance unanswered question selected
after question 0 is answered, at `now = 0`). -/
def valuesQuestion : TrainingQuestion :=
  { id := 3, question := "What are your top 3 core values?", category := "values",
    importance := 5, triggers := ["values", "important", "believe", "principles"],
    options := [{ text := "(open)", value := "open" }] }

/-- Catalog question 10, referenced by the worked example's entry. -/
def questionTen : TrainingQuestion :=
  { id := 10, question := "How do you handle conflict in relationships?",
    category := "relationships", importance := 4,
    triggers := ["conflict", "fight", "argument", "disagree", "handle"],
    options := [{ text := "(open)", value := "open" }] }

/-- `tokenize msgConflict` (also the tokens of question 10's text). -/
def conflictTokens : List String :=
  ["how", "you", "handle", "conflict", "relationships", "how you", "you handle",
   "handle conflict", "conflict relationships"]

/-- `tokenize "I stay calm and listen."`. -/
def answerTokens : List String :=
  ["stay", "calm", "listen", "stay calm", "calm listen"]

/-! ## Claim theorems -/

/-- C1 counterexample: a memory whose decayed weight (1/20 · rate⁰ = 1/20)
falls below the 0.1 floor is still present after the decay pass — the floor
is applied before the `≥ 0.1` filter, so the filter never removes anything. -/
theorem applyMemoryDecay_keeps_weak_memory :
    (1/20 : ℚ) * powQ (19/20) (daysSince 0 weakMemory.lastAccessed) < 1/10 ∧
    ((applyMemoryDecay powQ 0 proWeakMemory).memories.map
      (fun m => (m.id, m.emotionalWeight))) = [(1, 1/10)] := by
  have hla : weakMemory.lastAccessed = 0 := rfl
  have hd : daysSince 0 0 = 0 := by norm_num [daysSince]
  have hp : powQ (19/20) 0 = 1 := by norm_num [powQ]
  have hdecay : decayMemory powQ 0 weakMemory =
      { weakMemory with emotionalWeight := 1/10 } := by
    simp only [decayMemory, weakMemory, minMemoryStrength, hd, hp]
    norm_num
  constructor
  · rw [hla, hd, hp]; norm_num
  · simp only [applyMemoryDecay, proWeakMemory, freshProfile, List.map_cons,
      List.map_nil, hdecay]
    norm_num [weakMemory, minMemoryStrength, List.filter]

/-- C1 (amended): after the decay pass every memory's weight equals
`max 0.1 (previous weight × decayRate ^ days since last access)`, and no
memory is ever removed: the floored weights all pass the `≥ 0.1` filter, so
the resulting memory list is exactly the decayed image of the old one. -/
theorem applyMemoryDecay_spec (fpow : ℚ → ℚ → ℚ) (now : ℤ) (user : UserProfile) :
    (applyMemoryDecay fpow now user).memories = user.memories.map (decayMemory fpow now) ∧
    ∀ m ∈ user.memories,
      (decayMemory fpow now m).emotionalWeight =
        max (1/10) (m.emotionalWeight * fpow m.decayRate (daysSince now m.lastAccessed)) ∧
      1/10 ≤ (decayMemory fpow now m).emotionalWeight := by
  refine ⟨?_, ?_⟩
  · show List.filter _ (user.memories.map (decayMemory fpow now)) = _
    rw [List.filter_eq_self]
    intro m hm
    rcases List.mem_map.mp hm with ⟨m0, _, rfl⟩
    simp [decayMemory, minMemoryStrength, le_max_left]
  · intro m _
    exact ⟨rfl, by simp [decayMemory, minMemoryStrength, le_max_left]⟩

/-- C5 counterexample: submitting an answer to question 0 twice on a fresh
profile leaves two knowledge entries with questionId 0. -/
theorem submitAnswer_twice_duplicates :
    ¬ (((submitAnswer trainingQuestions expQ 0 1
          (submitAnswer trainingQuestions expQ 0 1
            (freshProfile "alice" "alice@example.com" 0) 0 "" none)
          0 "" none).knowledgeBase.filter
        (fun e => e.questionId = 0)).length ≤ 1) := by
  decide

/-- C5 (amended): `submitAnswer` appends unconditionally, so the knowledge
base may hold several entries per questionId: each call adds exactly one
more entry with the submitted questionId, and in particular two calls with
the same questionId add two. -/
theorem submitAnswer_appends_per_call (qs : List TrainingQuestion) (fexp : ℚ → ℚ)
    (now1 now2 : ℤ) (memId1 memId2 : ℕ) (u : UserProfile) (qid : ℕ)
    (ans1 ans2 : String) (em1 em2 : Option Emotion) :
    ((submitAnswer qs fexp now2 memId2
        (submitAnswer qs fexp now1 memId1 u qid ans1 em1) qid ans2 em2).knowledgeBase.filter
      (fun e => e.questionId = qid)).length =
      (u.knowledgeBase.filter (fun e => e.questionId = qid)).length + 2 := by
  simp [submitAnswer, List.filter_append]

/-- C7: `deploySystem` rejects profiles with fewer than 10 knowledge
entries, and otherwise stores the profile with `deployed = true` and
`trainingProgress = 100`. -/
theorem deploySystem_spec (now : ℤ) (user : UserProfile) :
    (user.knowledgeBase.length < 10 →
      deploySystem now user =
        Except.error "You must answer at least 10 questions before deploying") ∧
    (10 ≤ user.knowledgeBase.length →
      deploySystem now user =
        Except.ok { user with deployed := true, lastUpdated := now, trainingProgress := 100 }) ∧
    (∀ u', deploySystem now user = Except.ok u' →
      u'.deployed = true ∧ u'.trainingProgress = 100) := by
  refine ⟨fun h => ?_, fun h => ?_, fun u' h => ?_⟩
  · simp [deploySystem, h]
  · simp [deploySystem, Nat.not_lt.mpr h]
  · unfold deploySystem at h
    split at h
    · cases h
    · cases h
      exact ⟨rfl, rfl⟩

/-- C7 witness: a fresh profile (0 entries) is rejected and a profile with
10 entries is deployed with `trainingProgress = 100`. -/
theorem deploySystem_spec_witness :
    deploySystem 0 (freshProfile "alice" "alice@example.com" 0) =
      Except.error "You must answer at least 10 questions before deploying" ∧
    deploySystem 0 proTen =
      Except.ok { proTen with deployed := true, lastUpdated := 0, trainingProgress := 100 } :=
  ⟨(deploySystem_spec 0 _).1 (by decide), (deploySystem_spec 0 proTen).2.1 (by decide)⟩

/-! ### Congruence in the `Float.exp` parameter

`fexp` enters a chat turn only through each entry's recency factor, so two
models of `Float.exp` that agree at those points produce identical turns. -/

theorem entryScore_fexp_congr (qs : List TrainingQuestion) (g1 g2 : ℚ → ℚ) (now : ℤ)
    (ctx : ConversationContext) (toks : List String) (e : KnowledgeEntry)
    (h : g1 (-(1/10) * daysSince now e.lastUsed) = g2 (-(1/10) * daysSince now e.lastUsed)) :
    entryScore qs g1 now ctx toks e = entryScore qs g2 now ctx toks e := by
  simp only [entryScore]
  rw [h]

theorem bestEntryLoop_congr (s1 s2 : α → ℚ) :
    ∀ (l : List α), (∀ e ∈ l, s1 e = s2 e) →
      ∀ (b : Option α) (bs : ℚ), bestEntryLoop s1 l b bs = bestEntryLoop s2 l b bs := by
  intro l
  induction l with
  | nil => intro _ b bs; rfl
  | cons a t ih =>
    intro h b bs
    have ha := h a (List.mem_cons_self a t)
    have ht : ∀ e ∈ t, s1 e = s2 e := fun e he => h e (List.mem_cons_of_mem a he)
    simp only [bestEntryLoop, ha]
    split <;> exact ih ht _ _

theorem matchKnowledgeBase_fexp_congr (qs : List TrainingQuestion) (g1 g2 : ℚ → ℚ)
    (now : ℤ) (u : UserProfile) (msg : String) (ctx : ConversationContext)
    (h : ∀ e ∈ u.knowledgeBase,
      g1 (-(1/10) * daysSince now e.lastUsed) = g2 (-(1/10) * daysSince now e.lastUsed)) :
    matchKnowledgeBase qs g1 now u msg ctx = matchKnowledgeBase qs g2 now u msg ctx := by
  have hloop := bestEntryLoop_congr (entryScore qs g1 now ctx (tokenize msg))
    (entryScore qs g2 now ctx (tokenize msg)) u.knowledgeBase
    (fun e he => entryScore_fexp_congr qs g1 g2 now ctx (tokenize msg) e (h e he))
    none 0
  simp only [matchKnowledgeBase, hloop]

theorem generateAdvancedResponse_fexp_congr (qs : List TrainingQuestion) (g1 g2 : ℚ → ℚ)
    (now : ℤ) (u : UserProfile) (msg : String) (ctx : ConversationContext)
    (h : ∀ e ∈ u.knowledgeBase,
      g1 (-(1/10) * daysSince now e.lastUsed) = g2 (-(1/10) * daysSince now e.lastUsed)) :
    generateAdvancedResponse qs g1 now u msg ctx = generateAdvancedResponse qs g2 now u msg ctx := by
  simp only [generateAdvancedResponse, matchKnowledgeBase_fexp_congr qs g1 g2 now u msg ctx h]

theorem chatWithSystem_fexp_congr (qs : List TrainingQuestion) (g1 g2 : ℚ → ℚ)
    (now : ℤ) (u : UserProfile) (msg : String) (rst : Bool)
    (h : ∀ e ∈ u.knowledgeBase,
      g1 (-(1/10) * daysSince now e.lastUsed) = g2 (-(1/10) * daysSince now e.lastUsed)) :
    chatWithSystem qs g1 now u msg rst = chatWithSystem qs g2 now u msg rst := by
  have hg : ∀ c, generateAdvancedResponse qs g1 now u msg c =
      generateAdvancedResponse qs g2 now u msg c :=
    fun c => generateAdvancedResponse_fexp_congr qs g1 g2 now u msg c h
  simp only [chatWithSystem, hg]

/-! ### Evaluation of the worked chat-turn example -/

theorem tokenOverlap_conflict_self : tokenOverlap conflictTokens conflictTokens = 87/10 := by
  simp only [tokenOverlap, conflictTokens, List.foldl]
  norm_num [show ("how" : String).length = 3 from by decide,
    show ("you" : String).length = 3 from by decide,
    show ("handle" : String).length = 6 from by decide,
    show ("conflict" : String).length = 8 from by decide,
    show ("relationships" : String).length = 13 from by decide,
    show ("how you" : String).length = 7 from by decide,
    show ("you handle" : String).length = 10 from by decide,
    show ("handle conflict" : String).length = 15 from by decide,
    show ("conflict relationships" : String).length = 22 from by decide]

theorem tokenOverlap_conflict_answer : tokenOverlap conflictTokens answerTokens = 0 := by
  simp [tokenOverlap, conflictTokens, answerTokens]

theorem entryScore_conflict_eval :
    entryScore trainingQuestions expQ 0 freshCtx conflictTokens entryConflict = 174/5 := by
  have hfind : trainingQuestions.find? (fun q => q.id = entryConflict.questionId) =
      some questionTen := by decide
  have hq : tokenize questionTen.question = conflictTokens := by decide
  have ha : tokenize entryConflict.answer = answerTokens := by decide
  simp only [entryScore, hfind, hq, ha, tokenOverlap_conflict_self,
    tokenOverlap_conflict_answer, freshCtx]
  norm_num [daysSince, expQ, entryConflict, questionTen]

theorem matchKnowledgeBase_conflict_eval :
    matchKnowledgeBase trainingQuestions expQ 0 proConflict msgConflict freshCtx =
      some (entryConflict, 174/5) := by
  have htok : tokenize msgConflict = conflictTokens := by decide
  have hkb : proConflict.knowledgeBase = [entryConflict] := rfl
  simp only [matchKnowledgeBase, htok, hkb, bestEntryLoop, entryScore_conflict_eval]
  norm_num [conflictTokens]

theorem generateAdvancedResponse_conflict_eval :
    generateAdvancedResponse trainingQuestions expQ 0 proConflict msgConflict freshCtx =
      some "I stay calm and listen." := by
  simp only [generateAdvancedResponse, matchKnowledgeBase_conflict_eval]
  rw [if_pos (by norm_num : (5/2 : ℚ) < 174/5)]
  decide

theorem chatWithSystem_conflict_eval :
    chatWithSystem trainingQuestions expQ 0 proConflict msgConflict false =
      some (Except.ok ("I stay calm and listen.", chatAfterProfile)) := by
  have hemo : analyzeEmotion msgConflict = none := by decide
  have hdep : proConflict.deployed = true := rfl
  have hhist : proConflict.conversationHistory = [] := rfl
  have hpref : proConflict.preferences.preferredStyle = CommunicationStyle.balanced := rfl
  simp only [chatWithSystem, hdep, hhist, hemo, hpref]
  norm_num
  rw [show ({ recentTopics := [], currentEmotion := none, stylePreference := CommunicationStyle.balanced } : ConversationContext) = freshCtx from rfl]
  simp only [generateAdvancedResponse_conflict_eval]
  rfl

/-- C2: the failing input's bookkeeping is discarded.  The worked example's
turn matches with score 174/5 > 2.5 and returns the stored answer, yet the
profile stored by `chatWithSystem` keeps the knowledge base unchanged: the
matched entry's `usageCount` is still 0 (the source computes `_updatedEntry`
and drops it). -/
theorem chatTurn_usageCount_not_persisted :
    matchKnowledgeBase trainingQuestions expQ 0 proConflict msgConflict freshCtx =
      some (entryConflict, 174/5) ∧
    (5/2 : ℚ) < 174/5 ∧
    chatWithSystem trainingQuestions expQ 0 proConflict msgConflict false =
      some (Except.ok ("I stay calm and listen.", chatAfterProfile)) ∧
    chatAfterProfile.knowledgeBase.map (fun e => e.usageCount) = [0] ∧
    chatAfterProfile.knowledgeBase = proConflict.knowledgeBase :=
  ⟨matchKnowledgeBase_conflict_eval, by norm_num, chatWithSystem_conflict_eval, rfl, rfl⟩

/-- C3: on a deployed profile holding exactly the catalog-question-10 entry
(importance 4, answer "I stay calm and listen.", `lastUsed = now`), the chat
message "How do you handle conflict in relationships?" with empty history
scores 174/5 > 2.5 and the turn returns the stored answer unchanged under
the default preferences (depth 2, formality 3), for every model `fexp` of
`Float.exp` with `fexp 0 = 1`. -/
theorem chatTurn_conflict_example (fexp : ℚ → ℚ) (hfexp : fexp 0 = 1) :
    matchKnowledgeBase trainingQuestions fexp 0 proConflict msgConflict freshCtx =
      some (entryConflict, 174/5) ∧
    (5/2 : ℚ) < 174/5 ∧
    chatWithSystem trainingQuestions fexp 0 proConflict msgConflict false =
      some (Except.ok ("I stay calm and listen.", chatAfterProfile)) := by
  have hpt : ∀ e ∈ proConflict.knowledgeBase,
      fexp (-(1/10) * daysSince 0 e.lastUsed) = expQ (-(1/10) * daysSince 0 e.lastUsed) := by
    intro e he
    have hkb : proConflict.knowledgeBase = [entryConflict] := rfl
    rw [hkb] at he
    have he' : e = entryConflict := by simpa using he
    subst he'
    have harg : (-(1/10) * daysSince 0 entryConflict.lastUsed : ℚ) = 0 := by
      norm_num [daysSince, entryConflict]
    rw [harg, hfexp]
    norm_num [expQ]
  refine ⟨?_, by norm_num, ?_⟩
  · rw [matchKnowledgeBase_fexp_congr trainingQuestions fexp expQ 0 proConflict
      msgConflict freshCtx hpt]
    exact matchKnowledgeBase_conflict_eval
  · rw [chatWithSystem_fexp_congr trainingQuestions fexp expQ 0 proConflict
      msgConflict false hpt]
    exact chatWithSystem_conflict_eval

/-- C3 witness: the hypothesis holds of the concrete model `expQ` and the
worked example evaluates as claimed. -/
theorem chatTurn_conflict_example_witness :
    expQ 0 = 1 ∧
    chatWithSystem trainingQuestions expQ 0 proConflict msgConflict false =
      some (Except.ok ("I stay calm and listen.", chatAfterProfile)) :=
  ⟨by norm_num [expQ], (chatTurn_conflict_example expQ (by norm_num [expQ])).2.2⟩

/-! ### The best-entry loop: first-strict-improvement characterization -/

theorem bestEntryLoop_spec (score : α → ℚ) :
    ∀ (l : List α) (best : Option α) (bs : ℚ),
      (bestEntryLoop score l best bs = (best, bs) ∧ ∀ e ∈ l, score e ≤ bs) ∨
      (∃ l1 b l2, l = l1 ++ b :: l2 ∧
        bestEntryLoop score l best bs = (some b, score b) ∧ bs < score b ∧
        (∀ e ∈ l1, score e < score b) ∧ (∀ e ∈ l2, score e ≤ score b)) := by
  intro l
  induction l with
  | nil => intro best bs; left; exact ⟨rfl, by simp⟩
  | cons a t ih =>
    intro best bs
    by_cases h : bs < score a
    · right
      have hstep : bestEntryLoop score (a :: t) best bs =
          bestEntryLoop score t (some a) (score a) := by
        simp only [bestEntryLoop, if_pos h]
      rcases ih (some a) (score a) with ⟨heq, hle⟩ | ⟨l1, b, l2, hl, heq, hlt, hl1, hl2⟩
      · exact ⟨[], a, t, rfl, by rw [hstep, heq], h, by simp, hle⟩
      · refine ⟨a :: l1, b, l2, by simp [hl], by rw [hstep, heq], lt_trans h hlt, ?_, hl2⟩
        intro e he
        rcases List.mem_cons.mp he with rfl | he'
        · exact hlt
        · exact hl1 e he'
    · have hstep : bestEntryLoop score (a :: t) best bs = bestEntryLoop score t best bs := by
        simp only [bestEntryLoop, if_neg h]
      rcases ih best bs with ⟨heq, hle⟩ | ⟨l1, b, l2, hl, heq, hlt, hl1, hl2⟩
      · left
        refine ⟨by rw [hstep, heq], ?_⟩
        intro e he
        rcases List.mem_cons.mp he with rfl | he'
        · exact not_lt.mp h
        · exact hle e he'
      · right
        refine ⟨a :: l1, b, l2, by simp [hl], by rw [hstep, heq], hlt, ?_, hl2⟩
        intro e he
        rcases List.mem_cons.mp he with rfl | he'
        · exact lt_of_le_of_lt (not_lt.mp h) hlt
        · exact hl1 e he'

/-- C4 (amended): on a nonempty token list, the matcher returns `none` when
no entry scores strictly above 0 (even though a maximizing entry exists),
and otherwise returns the first entry attaining the maximal composite score
`(overlap(msg,question) + overlap(msg,answer)) × importance ×
exp(-0.1 × days since lastUsed) × context relevance` — ties in the maximum
are resolved in favor of the entry encountered first; entries scoring no
higher than an earlier best are skipped. -/
theorem matchKnowledgeBase_spec (qs : List TrainingQuestion) (fexp : ℚ → ℚ) (now : ℤ)
    (user : UserProfile) (message : String) (ctx : ConversationContext)
    (htok : tokenize message ≠ []) :
    ((∀ e ∈ user.knowledgeBase,
        entryScore qs fexp now ctx (tokenize message) e ≤ 0) →
      matchKnowledgeBase qs fexp now user message ctx = none) ∧
    (∀ e0 ∈ user.knowledgeBase,
      0 < entryScore qs fexp now ctx (tokenize message) e0 →
      ∃ l1 b l2, user.knowledgeBase = l1 ++ b :: l2 ∧
        matchKnowledgeBase qs fexp now user message ctx =
          some (b, entryScore qs fexp now ctx (tokenize message) b) ∧
        (∀ e ∈ user.knowledgeBase,
          entryScore qs fexp now ctx (tokenize message) e ≤
            entryScore qs fexp now ctx (tokenize message) b) ∧
        (∀ e ∈ l1,
          entryScore qs fexp now ctx (tokenize message) e <
            entryScore qs fexp now ctx (tokenize message) b)) := by
  have hlen : ¬ (tokenize message).length = 0 := by
    simpa [List.length_eq_zero] using htok
  constructor
  · intro hall
    rcases bestEntryLoop_spec (entryScore qs fexp now ctx (tokenize message))
        user.knowledgeBase none 0 with ⟨heq, _⟩ | ⟨l1, b, l2, hl, _, hlt, _, _⟩
    · simp only [matchKnowledgeBase, if_neg hlen, heq]
    · exact absurd (lt_of_lt_of_le hlt (hall b (by rw [hl]; simp)))
        (lt_irrefl 0)
  · intro e0 he0 hpos
    rcases bestEntryLoop_spec (entryScore qs fexp now ctx (tokenize message))
        user.knowledgeBase none 0 with ⟨_, hle⟩ | ⟨l1, b, l2, hl, heq, _, hl1, hl2⟩
    · exact absurd (lt_of_lt_of_le hpos (hle e0 he0)) (lt_irrefl 0)
    · refine ⟨l1, b, l2, hl, by simp only [matchKnowledgeBase, if_neg hlen, heq], ?_, hl1⟩
      intro e he
      rw [hl] at he
      rcases List.mem_append.mp he with he' | he'
      · exact le_of_lt (hl1 e he')
      · rcases List.mem_cons.mp he' with rfl | he''
        · exact le_refl _
        · exact hl2 e he''

/-- C4 counterexample: a profile whose only entry shares no token with the
message "hello" (so that entry trivially maximizes the composite score, and
is first) — yet the matcher returns `none`, because the loop only accepts
strict improvements over the initial best score 0. -/
theorem matchKnowledgeBase_zero_score_counterexample :
    matchKnowledgeBase trainingQuestions expQ 0 proConflict "hello" freshCtx = none ∧
    proConflict.knowledgeBase = [entryConflict] ∧
    tokenize "hello" = ["hello"] := by
  have htok : tokenize "hello" = ["hello"] := by decide
  have hfind : trainingQuestions.find? (fun q => q.id = entryConflict.questionId) =
      some questionTen := by decide
  have hq : tokenize questionTen.question = conflictTokens := by decide
  have ha : tokenize entryConflict.answer = answerTokens := by decide
  have hs : entryScore trainingQuestions expQ 0 freshCtx ["hello"] entryConflict = 0 := by
    simp only [entryScore, hfind, hq, ha, freshCtx]
    have h1 : tokenOverlap ["hello"] conflictTokens = 0 := by
      simp [tokenOverlap, conflictTokens]
    have h2 : tokenOverlap ["hello"] answerTokens = 0 := by
      simp [tokenOverlap, answerTokens]
    simp [h1, h2]
  have hkb : proConflict.knowledgeBase = [entryConflict] := rfl
  refine ⟨?_, rfl, htok⟩
  simp only [matchKnowledgeBase, htok, hkb, bestEntryLoop, hs]
  norm_num

/-- C4 witness: the hypotheses of the characterization are satisfiable — at
the "hello" input every entry scores ≤ 0 and the matcher returns `none`. -/
theorem matchKnowledgeBase_spec_witness :
    matchKnowledgeBase trainingQuestions expQ 0 proConflict "hello" freshCtx = none := by
  have htok : tokenize "hello" ≠ [] := by decide
  refine (matchKnowledgeBase_spec trainingQuestions expQ 0 proConflict "hello" freshCtx
    htok).1 ?_
  intro e he
  have hkb : proConflict.knowledgeBase = [entryConflict] := rfl
  rw [hkb] at he
  have he' : e = entryConflict := by simpa using he
  subst he'
  have htok2 : tokenize "hello" = ["hello"] := by decide
  rw [htok2]
  have hfind : trainingQuestions.find? (fun q => q.id = entryConflict.questionId) =
      some questionTen := by decide
  have hq : tokenize questionTen.question = conflictTokens := by decide
  have ha : tokenize entryConflict.answer = answerTokens := by decide
  simp only [entryScore, hfind, hq, ha, freshCtx]
  have h1 : tokenOverlap ["hello"] conflictTokens = 0 := by
    simp [tokenOverlap, conflictTokens]
  have h2 : tokenOverlap ["hello"] answerTokens = 0 := by
    simp [tokenOverlap, answerTokens]
  simp [h1, h2]

/-! ### Feedback and confidence -/

/-- C8: for an entry with `questionId = qid` and confidence in the
reachable range `[0.2, 1.0]`, feedback with score 5 maps the knowledge base
through the update `min 1 (max 0.2 (c × 1.05))` — strictly increasing the
entry's confidence unless it is already at the 1.0 cap — and score 1
strictly decreases it unless it is already at the 0.2 floor; the updated
confidence always stays within `[0.2, 1.0]`. -/
theorem provideFeedback_confidence_spec (now : ℤ) (u : UserProfile) (qid : ℕ)
    (e : KnowledgeEntry) (hmem : e ∈ u.knowledgeBase) (hq : e.questionId = qid)
    (hlo : 1/5 ≤ e.confidence) (hhi : e.confidence ≤ 1) :
    (provideFeedback now u (some qid) none 5 none).knowledgeBase =
      u.knowledgeBase.map (updateEntryConfidence now qid 5) ∧
    (provideFeedback now u (some qid) none 1 none).knowledgeBase =
      u.knowledgeBase.map (updateEntryConfidence now qid 1) ∧
    updateEntryConfidence now qid 5 e ∈
      (provideFeedback now u (some qid) none 5 none).knowledgeBase ∧
    updateEntryConfidence now qid 1 e ∈
      (provideFeedback now u (some qid) none 1 none).knowledgeBase ∧
    (e.confidence < 1 → e.confidence < (updateEntryConfidence now qid 5 e).confidence) ∧
    (e.confidence = 1 → (updateEntryConfidence now qid 5 e).confidence = 1) ∧
    (1/5 < e.confidence → (updateEntryConfidence now qid 1 e).confidence < e.confidence) ∧
    (e.confidence = 1/5 → (updateEntryConfidence now qid 1 e).confidence = 1/5) ∧
    (1/5 ≤ (updateEntryConfidence now qid 5 e).confidence ∧
      (updateEntryConfidence now qid 5 e).confidence ≤ 1) ∧
    (1/5 ≤ (updateEntryConfidence now qid 1 e).confidence ∧
      (updateEntryConfidence now qid 1 e).confidence ≤ 1) := by
  have hc5 : Nat.min 5 (Nat.max 1 5) = 5 := by decide
  have hc1 : Nat.min 5 (Nat.max 1 1) = 1 := by decide
  have hmap5 : (provideFeedback now u (some qid) none 5 none).knowledgeBase =
      u.knowledgeBase.map (updateEntryConfidence now qid 5) := by
    simp [provideFeedback, hc5]
  have hmap1 : (provideFeedback now u (some qid) none 1 none).knowledgeBase =
      u.knowledgeBase.map (updateEntryConfidence now qid 1) := by
    simp [provideFeedback, hc1]
  have hconf5 : (updateEntryConfidence now qid 5 e).confidence =
      min 1 (max (1/5) (e.confidence * (21/20))) := by
    simp only [updateEntryConfidence, if_pos hq]
    norm_num
  have hconf1 : (updateEntryConfidence now qid 1 e).confidence =
      min 1 (max (1/5) (e.confidence * (17/20))) := by
    simp only [updateEntryConfidence, if_pos hq]
    norm_num
  refine ⟨hmap5, hmap1, ?_, ?_, ?_, ?_, ?_, ?_, ?_, ?_⟩
  · rw [hmap5]; exact List.mem_map_of_mem _ hmem
  · rw [hmap1]; exact List.mem_map_of_mem _ hmem
  · intro h1
    rw [hconf5]
    have hcc : e.confidence < e.confidence * (21/20) := by nlinarith
    exact lt_min h1 (lt_of_lt_of_le hcc (le_max_right _ _))
  · intro h1
    rw [hconf5, h1]
    rw [max_eq_right (by norm_num : (1/5 : ℚ) ≤ 1 * (21/20))]
    rw [min_eq_left (by norm_num : (1 : ℚ) ≤ 1 * (21/20))]
  · intro h1
    rw [hconf1]
    have hcc : e.confidence * (17/20) < e.confidence := by nlinarith
    calc min 1 (max (1/5) (e.confidence * (17/20))) ≤ max (1/5) (e.confidence * (17/20)) :=
          min_le_right _ _
      _ < e.confidence := max_lt h1 hcc
  · intro h1
    rw [hconf1, h1]
    rw [max_eq_left (by norm_num : (1/5 : ℚ) * (17/20) ≤ 1/5)]
    rw [min_eq_right (by norm_num : (1/5 : ℚ) ≤ 1)]
  · rw [hconf5]
    exact ⟨le_min (by norm_num) (le_max_left _ _), min_le_left _ _⟩
  · rw [hconf1]
    exact ⟨le_min (by norm_num) (le_max_left _ _), min_le_left _ _⟩

/-- C8 witness: the entry with confidence 1/2 satisfies the hypotheses; its
score-5 update is stored and strictly larger. -/
theorem provideFeedback_confidence_spec_witness :
    entryHalf ∈ proHalf.knowledgeBase ∧ entryHalf.questionId = 10 ∧
    (1/5 : ℚ) ≤ entryHalf.confidence ∧ entryHalf.confidence ≤ 1 ∧
    updateEntryConfidence 0 10 5 entryHalf ∈
      (provideFeedback 0 proHalf (some 10) none 5 none).knowledgeBase ∧
    entryHalf.confidence < (updateEntryConfidence 0 10 5 entryHalf).confidence := by
  have hmem : entryHalf ∈ proHalf.knowledgeBase := by
    rw [show proHalf.knowledgeBase = [entryHalf] from rfl]
    simp
  have h := provideFeedback_confidence_spec 0 proHalf 10 entryHalf hmem rfl
    (by norm_num [entryHalf]) (by norm_num [entryHalf])
  exact ⟨hmem, rfl, by norm_num [entryHalf], by norm_num [entryHalf],
    h.2.2.1, h.2.2.2.2.1 (by norm_num [entryHalf])⟩

/-! ### Safety of the synthesis fallback -/

theorem matchKnowledgeBase_empty (qs : List TrainingQuestion) (fexp : ℚ → ℚ) (now : ℤ)
    (u : UserProfile) (msg : String) (ctx : ConversationContext)
    (h : u.knowledgeBase = []) :
    matchKnowledgeBase qs fexp now u msg ctx = none := by
  simp only [matchKnowledgeBase, h, bestEntryLoop]
  split <;> rfl

theorem synthesizeFallback_total (u : UserProfile) (ctx : ConversationContext)
    (hmem : u.memories = []) :
    ∃ r, synthesizeFallback u ctx = some r := by
  simp only [synthesizeFallback, hmem, List.length_nil, lt_irrefl, if_false]
  by_cases hc : 0 < ctx.recentTopics.length
  · rcases List.exists_cons_of_ne_nil (List.ne_nil_of_length_pos hc) with ⟨t, rest, hrt⟩
    rw [if_pos hc, hrt]
    exact ⟨_, rfl⟩
  · rw [if_neg hc]
    exact ⟨_, rfl⟩

/-- C10: a chat turn on a deployed profile with empty knowledge base,
traits, and memories always succeeds with a synthesized reply, for every
message — each indexing on the synthesis path (`conversationHistory[0]`,
top memory, most recent topic) sits behind the non-emptiness guard the
source checks, so the modelled trap (`none`) is unreachable. -/
theorem chat_empty_profile_safe (qs : List TrainingQuestion) (fexp : ℚ → ℚ) (now : ℤ)
    (u : UserProfile) (message : String) (resetContext : Bool)
    (hdep : u.deployed = true) (hkb : u.knowledgeBase = [])
    (htr : u.traits = []) (hmem : u.memories = []) :
    ∃ reply u', chatWithSystem qs fexp now u message resetContext =
      some (Except.ok (reply, u')) := by
  have hgen : ∀ ctx, generateAdvancedResponse qs fexp now u message ctx =
      synthesizeFallback u ctx := by
    intro ctx
    simp only [generateAdvancedResponse, matchKnowledgeBase_empty qs fexp now u message ctx hkb]
  simp only [chatWithSystem, hdep]
  rw [if_neg (by simp)]
  by_cases hh : resetContext = true ∨ u.conversationHistory.length = 0
  · rw [if_pos hh]
    rcases synthesizeFallback_total u
      { recentTopics := [], currentEmotion := analyzeEmotion message, stylePreference := u.preferences.preferredStyle }
      hmem with ⟨r, hr⟩
    simp only [hgen, hr]
    exact ⟨_, _, rfl⟩
  · rw [if_neg hh]
    push_neg at hh
    have hne : u.conversationHistory ≠ [] := by
      intro hnil
      exact hh.2 (by rw [hnil]; rfl)
    rcases List.exists_cons_of_ne_nil hne with ⟨c0, rest, hc0⟩
    rw [hc0]
    rcases synthesizeFallback_total u (updateContext c0 message) hmem with ⟨r, hr⟩
    simp only [List.head?_cons, Option.map_some', hgen, hr]
    exact ⟨_, _, rfl⟩

/-- C10 witness: the concrete empty deployed profile satisfies every
hypothesis and the turn succeeds. -/
theorem chat_empty_profile_safe_witness :
    (chatWithSystem trainingQuestions expQ 0 emptyDeployed "hi" false).isSome = true := by
  rcases chat_empty_profile_safe trainingQuestions expQ 0 emptyDeployed "hi" false
    rfl rfl rfl rfl with ⟨r, u', h⟩
  rw [h]
  rfl

/-! ### What each public operation does to traits and knowledge base -/

theorem chatWithSystem_ok_inv (qs : List TrainingQuestion) (fexp : ℚ → ℚ) (now : ℤ)
    (u : UserProfile) (msg : String) (rst : Bool) (r : String) (u' : UserProfile)
    (h : chatWithSystem qs fexp now u msg rst = some (Except.ok (r, u'))) :
    u'.traits = u.traits ∧ u'.knowledgeBase = u.knowledgeBase ∧ u'.memories = u.memories := by
  unfold chatWithSystem at h
  by_cases hd : u.deployed = false
  · rw [if_pos hd] at h
    exact absurd h (by simp)
  · rw [if_neg hd] at h
    simp only at h
    repeat' split at h
    all_goals
      first
        | (injection h with h1
           injection h1 with h2
           injection h2 with h3 h4
           rw [← h4]
           exact ⟨rfl, rfl, rfl⟩)
        | injection h

theorem submitAnswer_traits_cases (qs : List TrainingQuestion) (fexp : ℚ → ℚ) (now : ℤ)
    (memId : ℕ) (u : UserProfile) (qid : ℕ) (ans : String) (em : Option Emotion) :
    (submitAnswer qs fexp now memId u qid ans em).traits = u.traits ∨
    (submitAnswer qs fexp now memId u qid ans em).traits =
      extractTraits fexp ans u.traits now := by
  unfold submitAnswer
  cases hq : qs.find? (fun q => q.id = qid) with
  | none => left; rfl
  | some q =>
    by_cases hc : q.category = "personality"
    · right; simp [hc]
    · left; simp [hc]

theorem submitAnswer_kb (qs : List TrainingQuestion) (fexp : ℚ → ℚ) (now : ℤ)
    (memId : ℕ) (u : UserProfile) (qid : ℕ) (ans : String) (em : Option Emotion) :
    (submitAnswer qs fexp now memId u qid ans em).knowledgeBase =
      u.knowledgeBase ++
        [{ questionId := qid, answer := ans, confidence := 1, lastUsed := now,
           usageCount := 0 }] := rfl

theorem updateEntryConfidence_questionId (now : ℤ) (qid clamped : ℕ) (e : KnowledgeEntry) :
    (updateEntryConfidence now qid clamped e).questionId = e.questionId := by
  unfold updateEntryConfidence
  split <;> rfl

theorem provideFeedback_answered (now : ℤ) (u : UserProfile) (qid? mid? : Option ℕ)
    (score : ℕ) (c? : Option String) (q : ℕ) (h : answered u q) :
    answered (provideFeedback now u qid? mid? score c?) q := by
  rcases h with ⟨e, he, hq⟩
  cases qid? with
  | none => exact ⟨e, he, hq⟩
  | some q0 =>
    refine ⟨updateEntryConfidence now q0 (Nat.min 5 (Nat.max 1 score)) e, ?_, ?_⟩
    · exact List.mem_map_of_mem _ he
    · rw [updateEntryConfidence_questionId]
      exact hq

theorem deploySystem_ok_inv (now : ℤ) (u u' : UserProfile)
    (h : deploySystem now u = Except.ok u') :
    u' = { u with deployed := true, lastUpdated := now, trainingProgress := 100 } := by
  unfold deploySystem at h
  split at h
  · cases h
  · cases h
    rfl

/-! ### The trait invariant through `extractTraits` -/

theorem upsertTrait_names (now : ℤ) (clean : String) :
    ∀ ts : List PersonalityTrait,
      (upsertTrait now clean ts).map PersonalityTrait.name =
        if clean ∈ ts.map PersonalityTrait.name then ts.map PersonalityTrait.name
        else ts.map PersonalityTrait.name ++ [clean] := by
  intro ts
  induction ts with
  | nil => simp [upsertTrait]
  | cons t rest ih =>
    simp only [upsertTrait]
    by_cases h : t.name = clean
    · rw [if_pos h]
      simp [h]
    · rw [if_neg h]
      simp only [List.map_cons, ih]
      by_cases hm : clean ∈ rest.map PersonalityTrait.name
      · simp [hm, List.mem_cons]
      · simp [hm, List.mem_cons, Ne.symm h]

theorem upsertTrait_bounds (now : ℤ) (clean : String) :
    ∀ ts : List PersonalityTrait,
      (∀ t ∈ ts, 0 ≤ t.strength ∧ t.strength ≤ 10) →
      ∀ t ∈ upsertTrait now clean ts, 0 ≤ t.strength ∧ t.strength ≤ 10 := by
  intro ts
  induction ts with
  | nil =>
    intro _ t ht
    simp only [upsertTrait, List.mem_singleton] at ht
    subst ht
    norm_num
  | cons a rest ih =>
    intro h t ht
    simp only [upsertTrait] at ht
    by_cases hn : a.name = clean
    · rw [if_pos hn] at ht
      rcases List.mem_cons.mp ht with rfl | ht'
      · have ha := h a (List.mem_cons_self a rest)
        exact ⟨le_min (by norm_num) (by linarith [ha.1]), min_le_left _ _⟩
      · exact h t (List.mem_cons_of_mem a ht')
    · rw [if_neg hn] at ht
      rcases List.mem_cons.mp ht with rfl | ht'
      · exact h t (List.mem_cons_self t rest)
      · exact ih (fun x hx => h x (List.mem_cons_of_mem a hx)) t ht'

theorem upsertTrait_nodup (now : ℤ) (clean : String) (ts : List PersonalityTrait)
    (h : (ts.map PersonalityTrait.name).Nodup) :
    ((upsertTrait now clean ts).map PersonalityTrait.name).Nodup := by
  rw [upsertTrait_names]
  split
  · exact h
  · rename_i hnm
    rw [List.nodup_append]
    exact ⟨h, List.nodup_singleton _, by simpa using hnm⟩

theorem processTraitToken_cases (now : ℤ) (ts : List PersonalityTrait) (tok : List Char) :
    processTraitToken now ts tok =
      upsertTrait now (String.mk (trimPunctuation (tok.map lowerChar))) ts ∨
    processTraitToken now ts tok = ts := by
  unfold processTraitToken
  dsimp only
  split
  · exact Or.inl rfl
  · exact Or.inr rfl

theorem processTraitToken_bounds (now : ℤ) (ts : List PersonalityTrait)
    (tok : List Char) (h : ∀ t ∈ ts, 0 ≤ t.strength ∧ t.strength ≤ 10) :
    ∀ t ∈ processTraitToken now ts tok, 0 ≤ t.strength ∧ t.strength ≤ 10 := by
  rcases processTraitToken_cases now ts tok with hc | hc <;> rw [hc]
  · exact upsertTrait_bounds now _ ts h
  · exact h

theorem processTraitToken_nodup (now : ℤ) (ts : List PersonalityTrait)
    (tok : List Char) (h : (ts.map PersonalityTrait.name).Nodup) :
    ((processTraitToken now ts tok).map PersonalityTrait.name).Nodup := by
  rcases processTraitToken_cases now ts tok with hc | hc <;> rw [hc]
  · exact upsertTrait_nodup now _ ts h
  · exact h

theorem foldl_processTraitToken_bounds (now : ℤ) :
    ∀ (toks : List (List Char)) (ts : List PersonalityTrait),
      (∀ t ∈ ts, 0 ≤ t.strength ∧ t.strength ≤ 10) →
      ∀ t ∈ toks.foldl (processTraitToken now) ts, 0 ≤ t.strength ∧ t.strength ≤ 10 := by
  intro toks
  induction toks with
  | nil => intro ts h; simpa using h
  | cons tok rest ih =>
    intro ts h
    simp only [List.foldl_cons]
    exact ih _ (processTraitToken_bounds now ts tok h)

theorem foldl_processTraitToken_nodup (now : ℤ) :
    ∀ (toks : List (List Char)) (ts : List PersonalityTrait),
      (ts.map PersonalityTrait.name).Nodup →
      ((toks.foldl (processTraitToken now) ts).map PersonalityTrait.name).Nodup := by
  intro toks
  induction toks with
  | nil => intro ts h; simpa using h
  | cons tok rest ih =>
    intro ts h
    simp only [List.foldl_cons]
    exact ih _ (processTraitToken_nodup now ts tok h)

theorem decayTraits_names (fexp : ℚ → ℚ) (now : ℤ) (ts : List PersonalityTrait) :
    (ts.map (decayTrait fexp now)).map PersonalityTrait.name =
      ts.map PersonalityTrait.name := by
  induction ts with
  | nil => rfl
  | cons t rest ih => simp [decayTrait, ih]

theorem decayTraits_bounds (fexp : ℚ → ℚ)
    (hfexp : ∀ x ≤ 0, 0 ≤ fexp x ∧ fexp x ≤ 1) (now : ℤ) (ts : List PersonalityTrait)
    (h : ∀ t ∈ ts, 0 ≤ t.strength ∧ t.strength ≤ 10) :
    ∀ t ∈ ts.map (decayTrait fexp now), 0 ≤ t.strength ∧ t.strength ≤ 10 := by
  intro t ht
  rcases List.mem_map.mp ht with ⟨t0, ht0, rfl⟩
  have hb := h t0 ht0
  have hh : (0 : ℚ) ≤ hoursSince now t0.lastUpdated := by
    unfold hoursSince
    positivity
  have harg : (-(1/10000) * hoursSince now t0.lastUpdated : ℚ) ≤ 0 := by nlinarith
  have hf := hfexp _ harg
  simp only [decayTrait]
  constructor
  · exact mul_nonneg hb.1 hf.1
  · nlinarith [hb.1, hb.2, hf.1, hf.2]

theorem extractTraits_invariant (fexp : ℚ → ℚ)
    (hfexp : ∀ x ≤ 0, 0 ≤ fexp x ∧ fexp x ≤ 1) (text : String)
    (ts : List PersonalityTrait) (now : ℤ)
    (hb : ∀ t ∈ ts, 0 ≤ t.strength ∧ t.strength ≤ 10)
    (hn : (ts.map PersonalityTrait.name).Nodup) :
    traitsInvariant (extractTraits fexp text ts now) := by
  unfold extractTraits traitsInvariant
  have hall_b := foldl_processTraitToken_bounds now (fieldsBy isTraitSepChar text.data)
    (ts.map (decayTrait fexp now)) (decayTraits_bounds fexp hfexp now ts hb)
  have hall_n := foldl_processTraitToken_nodup now (fieldsBy isTraitSepChar text.data)
    (ts.map (decayTrait fexp now)) (by rw [decayTraits_names]; exact hn)
  have hperm := sortOrd_perm
    (fun (a b : PersonalityTrait) => decide (b.strength ≤ a.strength))
    ((fieldsBy isTraitSepChar text.data).foldl (processTraitToken now)
      (ts.map (decayTrait fexp now)))
  refine ⟨?_, ?_, ?_⟩
  · intro t ht
    exact hall_b t (hperm.mem_iff.mp (List.take_subset _ _ ht))
  · rw [List.length_take]
    exact le_trans (min_le_left _ _) (min_le_left _ _)
  · have hsn : ((sortOrd (fun (a b : PersonalityTrait) => decide (b.strength ≤ a.strength))
        ((fieldsBy isTraitSepChar text.data).foldl (processTraitToken now)
          (ts.map (decayTrait fexp now)))).map PersonalityTrait.name).Nodup :=
      (List.Perm.nodup_iff (hperm.map _)).mpr hall_n
    exact hsn.sublist ((List.take_sublist _ _).map _)

theorem step_preserves_traitsInvariant (fexp : ℚ → ℚ) (fpow : ℚ → ℚ → ℚ)
    (hfexp : ∀ x ≤ 0, 0 ≤ fexp x ∧ fexp x ≤ 1) (u u' : UserProfile)
    (h : Step fexp fpow u u') (hi : traitsInvariant u.traits) :
    traitsInvariant u'.traits := by
  cases h with
  | updateProfile qs now bio pic style depth formality u => exact hi
  | submitAnswer qs now memId qid ans em u =>
    rcases submitAnswer_traits_cases qs fexp now memId u qid ans em with hc | hc <;> rw [hc]
    · exact hi
    · exact extractTraits_invariant fexp hfexp ans u.traits now hi.1 hi.2.2
  | deploy now u u' hd =>
    rw [deploySystem_ok_inv now u u' hd]
    exact hi
  | chat qs now msg rst reply u u' hc =>
    rw [(chatWithSystem_ok_inv qs fexp now u msg rst reply u' hc).1]
    exact hi
  | feedback now qid mid score comments u => exact hi
  | loginDecay now u => exact hi

/-- C6: every profile reachable from registration through the public
operations has trait strengths in `[0, 10]`, at most 15 traits, and no two
traits sharing a name — for every model of `Float.exp` that is bounded in
`[0, 1]` on nonpositive arguments (as the real `exp` is). -/
theorem reachable_traits_invariant (fexp : ℚ → ℚ) (fpow : ℚ → ℚ → ℚ)
    (hfexp : ∀ x ≤ 0, 0 ≤ fexp x ∧ fexp x ≤ 1)
    (username email : String) (t0 : ℤ) (u : UserProfile)
    (h : Relation.ReflTransGen (Step fexp fpow) (freshProfile username email t0) u) :
    traitsInvariant u.traits := by
  induction h with
  | refl =>
    refine ⟨?_, ?_, ?_⟩ <;> simp [freshProfile, traitsInvariant]
  | tail hsteps hstep ih =>
    exact step_preserves_traitsInvariant fexp fpow hfexp _ _ hstep ih

/-- C6 witness: the concrete models `expQ`/`powQ` satisfy the boundedness
hypothesis and the registration profile is reachable in zero steps. -/
theorem reachable_traits_invariant_witness :
    (∀ x ≤ 0, 0 ≤ expQ x ∧ expQ x ≤ 1) ∧
    traitsInvariant (freshProfile "alice" "alice@example.com" 0).traits := by
  have hexp : ∀ x ≤ 0, 0 ≤ expQ x ∧ expQ x ≤ 1 := by
    intro x _
    unfold expQ
    split <;> norm_num
  exact ⟨hexp, reachable_traits_invariant expQ powQ hexp "alice" "alice@example.com" 0 _
    Relation.ReflTransGen.refl⟩

/-! ### Question selection never returns an answered question -/

theorem getD_mem {α : Type _} :
    ∀ (l : List α) (i : ℕ) (d : α), i < l.length → l.getD i d ∈ l := by
  intro l
  induction l with
  | nil => intro i d h; simp at h
  | cons a t ih =>
    intro i d h
    cases i with
    | zero => simp
    | succ n =>
      rw [List.getD_cons_succ]
      exact List.mem_cons_of_mem a (ih n d (by simpa using h))

theorem sortQuestions_perm (l : List TrainingQuestion) : (sortQuestions l).Perm l :=
  sortOrd_perm _ l

theorem selectQuestionByImportance_mem (now : ℤ) (l : List TrainingQuestion)
    (hl : l ≠ []) : selectQuestionByImportance now l ∈ l := by
  unfold selectQuestionByImportance
  dsimp only
  have hlpos : 0 < l.length := List.length_pos.mpr hl
  have hpc : 0 < Nat.min 3 (sortQuestions l).length := by
    rw [(sortQuestions_perm l).length_eq]
    exact Nat.lt_min.mpr ⟨by norm_num, hlpos⟩
  have htake_len :
      (List.take (Nat.min 3 (sortQuestions l).length) (sortQuestions l)).length =
        Nat.min 3 (sortQuestions l).length := by
    rw [List.length_take]
    exact Nat.min_eq_left (Nat.min_le_right _ _)
  have hmem := getD_mem
    (List.take (Nat.min 3 (sortQuestions l).length) (sortQuestions l))
    (now.natAbs % Nat.min 3 (sortQuestions l).length) dfltQuestion
    (by rw [htake_len]; exact Nat.mod_lt _ hpc)
  exact (sortQuestions_perm l).subset (List.take_subset _ _ hmem)

theorem selectNext_mem (now : ℤ) (ctxopt : Option String)
    (l : List TrainingQuestion) (hl : l ≠ []) : selectNext now ctxopt l ∈ l := by
  unfold selectNext
  cases ctxopt with
  | none => exact selectQuestionByImportance_mem now l hl
  | some c =>
    dsimp only
    split
    · rename_i hpos
      have hql : (sortQuestions (l.filter
          (fun q => q.triggers.any (fun trigger => textContains (lowerString c) trigger)))).length =
          (l.filter
            (fun q => q.triggers.any (fun trigger => textContains (lowerString c) trigger))).length :=
        (sortQuestions_perm _).length_eq
      have hmem := getD_mem _ 0 dfltQuestion (by rw [hql]; exact hpos)
      exact List.mem_of_mem_filter ((sortQuestions_perm _).subset hmem)
    · exact selectQuestionByImportance_mem now l hl

theorem getNextQuestion_ok_not_answered (now : ℤ) (qs : List TrainingQuestion)
    (context : Option String) (u : UserProfile) (q : TrainingQuestion)
    (h : getNextQuestion now qs context u = Except.ok q) : ¬ answered u q.id := by
  unfold getNextQuestion at h
  dsimp only at h
  split at h
  · cases h
  · rename_i hne
    injection h with hq
    subst hq
    intro hans
    rcases hans with ⟨e, he, heq⟩
    have hmem : selectNext now context
        (qs.filter (fun q' =>
          !((u.knowledgeBase.map (fun e => e.questionId)).contains q'.id))) ∈
        qs.filter (fun q' =>
          !((u.knowledgeBase.map (fun e => e.questionId)).contains q'.id)) :=
      selectNext_mem now context _ (fun hnil => hne (by rw [hnil]; rfl))
    have hfil := List.of_mem_filter hmem
    have hid : e.questionId ∈ u.knowledgeBase.map (fun e => e.questionId) :=
      List.mem_map_of_mem _ he
    rw [heq] at hid
    simp at hfil
    simp at hid
    rcases hid with ⟨a, ha, ha2⟩
    exact hfil a ha ha2

theorem getNextQuestion_exhausted (now : ℤ) (qs : List TrainingQuestion)
    (ctx : Option String) (u : UserProfile) (h : ∀ q ∈ qs, answered u q.id) :
    getNextQuestion now qs ctx u = Except.error "All questions answered" := by
  unfold getNextQuestion
  dsimp only
  have hfil : qs.filter (fun q =>
      !((u.knowledgeBase.map (fun e => e.questionId)).contains q.id)) = [] := by
    rw [List.filter_eq_nil_iff]
    intro q hq
    rcases h q hq with ⟨e, he, heq⟩
    simp
    exact ⟨e, he, heq⟩
  rw [hfil]
  rfl

theorem submitAnswer_answers (qs : List TrainingQuestion) (fexp : ℚ → ℚ) (now : ℤ)
    (memId : ℕ) (u : UserProfile) (qid : ℕ) (ans : String) (em : Option Emotion) :
    answered (submitAnswer qs fexp now memId u qid ans em) qid :=
  ⟨{ questionId := qid, answer := ans, confidence := 1, lastUsed := now, usageCount := 0 },
   by rw [submitAnswer_kb]; exact List.mem_append_right _ (by simp), rfl⟩

theorem step_preserves_answered (fexp : ℚ → ℚ) (fpow : ℚ → ℚ → ℚ) (u u' : UserProfile)
    (h : Step fexp fpow u u') (q : ℕ) (ha : answered u q) : answered u' q := by
  cases h with
  | updateProfile qs now bio pic style depth formality u => exact ha
  | submitAnswer qs now memId qid ans em u =>
    rcases ha with ⟨e, he, heq⟩
    exact ⟨e, by rw [submitAnswer_kb]; exact List.mem_append_left _ he, heq⟩
  | deploy now u u' hd =>
    rw [deploySystem_ok_inv now u u' hd]
    exact ha
  | chat qs now msg rst reply u u' hc =>
    rcases ha with ⟨e, he, heq⟩
    exact ⟨e, by
      rw [(chatWithSystem_ok_inv qs fexp now u msg rst reply u' hc).2.1]; exact he, heq⟩
  | feedback now qid mid score comments u =>
    exact provideFeedback_answered now u qid mid score comments q ha
  | loginDecay now u => exact ha

/-- C9: once an answer to question `Q` is submitted, every profile obtained
by any further sequence of public operations never gets question `Q` back
from `getNextQuestion` (for any catalog, context and time), and once every
catalog question is answered `getNextQuestion` returns the
all-questions-answered error. -/
theorem submitAnswer_excludes_question (fexp : ℚ → ℚ) (fpow : ℚ → ℚ → ℚ)
    (qs0 : List TrainingQuestion) (u : UserProfile) (Q : ℕ) (ans : String)
    (em : Option Emotion) (now : ℤ) (memId : ℕ) (u2 : UserProfile)
    (h : Relation.ReflTransGen (Step fexp fpow)
      (submitAnswer qs0 fexp now memId u Q ans em) u2)
    (qs2 : List TrainingQuestion) (now2 : ℤ) (ctx : Option String) :
    (∀ q, getNextQuestion now2 qs2 ctx u2 = Except.ok q → q.id ≠ Q) ∧
    ((∀ q ∈ qs2, answered u2 q.id) →
      getNextQuestion now2 qs2 ctx u2 = Except.error "All questions answered") := by
  have hans : answered u2 Q := by
    induction h with
    | refl => exact submitAnswer_answers qs0 fexp now memId u Q ans em
    | tail hsteps hstep ih => exact step_preserves_answered _ _ _ _ hstep Q ih
  constructor
  · intro q hq hid
    exact getNextQuestion_ok_not_answered now2 qs2 ctx u2 q hq (hid ▸ hans)
  · exact getNextQuestion_exhausted now2 qs2 ctx u2

/-- C9 witness: after answering question 0 on a fresh profile, the next
question returned (at `now = 0`, no context) is catalog question 3, whose
id differs from 0. -/
theorem submitAnswer_excludes_question_witness :
    getNextQuestion 0 trainingQuestions none proAnsweredZero = Except.ok valuesQuestion ∧
    valuesQuestion.id ≠ 0 := by
  have hget : getNextQuestion 0 trainingQuestions none proAnsweredZero =
      Except.ok valuesQuestion := by decide
  exact ⟨hget, (submitAnswer_excludes_question expQ powQ trainingQuestions
    (freshProfile "alice" "alice@example.com" 0) 0 "" none 0 1 proAnsweredZero
    Relation.ReflTransGen.refl trainingQuestions 0 none).1 valuesQuestion hget⟩

end SelfBackend
